import Mathlib

/-!
# budget-pal/api-server: the user store and its HTTP handlers

A shallow embedding of `data_store.go` and of the request handlers of `main.go`.

* The Go map `map[int]User` is a finite map `Finmap` from `Int` to `User`: unordered,
  at most one record per key, compared extensionally. Ids are only drawn, compared and
  printed, never computed with, so the 64-bit `int` is `Int` without a modulus.
* Methods with a pointer receiver `*DataStore` are state passing: each returns its Go
  results together with the store it leaves behind.
* `rand.Int()` is a stream of draws `Nat → Int`; the `for` loop of `CreateUser` runs on
  fuel, one unit per evaluation of its condition.
* `strconv.Atoi` is a parameter `atoi : String → Option Int` of every handler
  (`none` is the `err != nil` branch).
* `json.Decoder.Decode` is described by what it delivers for the two fields the
  handlers declare: a body is either malformed, or an object whose `name` and `email`
  are each absent or a string.
-/

namespace BudgetPal

/-! ## data_store.go -/

/-- The record `type User struct { name string; email string; id int }`. -/
structure User where
  name : String
  email : String
  id : Int
deriving DecidableEq

/-- The zero value of `User`, which a map read of a missing key yields. -/
def User.zero : User := ⟨"", "", 0⟩

/-- The store `type DataStore struct { users map[int]User }`. -/
structure DataStore where
  users : Finmap (fun _ : Int => User)
deriving DecidableEq

/-- The constructor `CreateDataStore`: a store over an empty map. -/
def CreateDataStore : DataStore := ⟨∅⟩

/-- The two-result map read `v, ok := m[k]`. -/
def mapIndex (m : Finmap (fun _ : Int => User)) (k : Int) : User × Bool :=
  match m.lookup k with
  | some u => (u, true)
  | none => (User.zero, false)

/-- The sequence of values successive calls of `rand.Int()` return. -/
abbrev Draws := Nat → Int

/-- The method `GenerateUserID`: the next draw, and the advanced position in the sequence. -/
def GenerateUserID (draws : Draws) (pos : Nat) : Int × Nat :=
  (draws pos, pos + 1)

/-- The loop `for _, exists := ds.users[id]; exists; { id = ds.GenerateUserID() }` after its
init statement has run: `exists` is bound once by the init statement and the body assigns
only `id`, so the condition reads the same `exists` at every iteration. One unit of fuel
per evaluation of the condition; `none` when the fuel runs out. -/
def createLoop (draws : Draws) (exists_ : Bool) : Nat → Int → Nat → Option (Int × Nat)
  | 0, _, _ => none
  | fuel + 1, id, pos =>
    if exists_ then
      let (id', pos') := GenerateUserID draws pos
      createLoop draws exists_ fuel id' pos'
    else
      some (id, pos)

/-- The method `CreateUser`: the returned id and the store left behind, or `none` when the
loop has not ended within the fuel. -/
def CreateUser (ds : DataStore) (draws : Draws) (fuel : Nat) : Option (Int × DataStore) :=
  let (id, pos) := GenerateUserID draws 0
  let (_, exists_) := mapIndex ds.users id
  match createLoop draws exists_ fuel id pos with
  | none => none
  | some (id, _) => some (id, ⟨ds.users.insert id ⟨"", "", id⟩⟩)

/-- The method `GetUser`. -/
def GetUser (ds : DataStore) (id : Int) : (User × Bool) × DataStore :=
  let (user, exists_) := mapIndex ds.users id
  ((user, exists_), ds)

/-- The method `DeleteUser`. -/
def DeleteUser (ds : DataStore) (id : Int) : Bool × DataStore :=
  let (_, exists_) := mapIndex ds.users id
  (exists_, ⟨ds.users.erase id⟩)

/-- The method `UpdateUser`. -/
def UpdateUser (ds : DataStore) (id : Int) (name email : String) : Bool × DataStore :=
  let (user, exists_) := mapIndex ds.users id
  if !exists_ then
    (false, ds)
  else
    let name := if name = "" then user.name else name
    let email := if email = "" then user.email else email
    let user : User := ⟨name, user.email, user.id⟩
    let user : User := ⟨user.name, email, user.id⟩
    (true, ⟨ds.users.insert id user⟩)

/-! ## main.go -/

/-- The struct `Links`. -/
structure Links where
  Rel : String
  Href : String
deriving DecidableEq

/-- The struct `UserResponse`. -/
structure UserResponse where
  ID : Int
  Name : String
  Email : String
  Links : List Links
deriving DecidableEq

/-- What a handler writes: the text given to `http.Error`, an encoded `UserResponse`, or
the anonymous struct `handleDeleteUser` encodes. -/
inductive Payload where
  | error (msg : String)
  | user (r : UserResponse)
  | deleted (message : String) (links : List Links)
deriving DecidableEq

/-- A response: its status code and its payload. A handler that encodes without calling
`WriteHeader` answers with status 200. -/
structure Response where
  status : Nat
  payload : Payload
deriving DecidableEq

/-- What `json.NewDecoder(r.Body).Decode` makes of a request body, as far as the fields
`name` and `email` go: a decode error, or an object in which each of the two is absent
or a string. -/
inductive Body where
  | malformed
  | object (name email : Option String)
deriving DecidableEq

/-- A request: the path value `id` and the body. -/
structure Request where
  pathId : String
  body : Body

/-- Decoding into `struct { Name string; Email string }`, the target in `handlePutUser`:
an absent field leaves the zero value `""`. -/
def decodePut : Body → Option (String × String)
  | .malformed => none
  | .object name email => some (name.getD "", email.getD "")

/-- Decoding into `struct { Name *string; Email *string }`, the target in
`handlePatchUser`: an absent field leaves the pointer nil. -/
def decodePatch : Body → Option (Option String × Option String)
  | .malformed => none
  | .object name email => some (name, email)

/-- The link target `fmt.Sprintf("/users/%d", id)`. -/
def userHref (id : Int) : String := "/users/" ++ toString id

/-- The three links of a single-user response. -/
def userLinks (id : Int) : List Links :=
  [⟨"self", userHref id⟩, ⟨"delete", userHref id⟩, ⟨"users", "/users/"⟩]

/-- The handler `handlePostUser`; `none` when `CreateUser` has not returned within the fuel. -/
def handlePostUser (ds : DataStore) (draws : Draws) (fuel : Nat) :
    Option (Response × DataStore) :=
  match CreateUser ds draws fuel with
  | none => none
  | some (id, ds) => some (⟨201, .user ⟨id, "", "", userLinks id⟩⟩, ds)

/-- The handler `handleGetUser`. -/
def handleGetUser (atoi : String → Option Int) (ds : DataStore) (r : Request) :
    Response × DataStore :=
  match atoi r.pathId with
  | none => (⟨400, .error "Invalid user ID"⟩, ds)
  | some id =>
    let ((user, exists_), ds) := GetUser ds id
    if !exists_ then
      (⟨404, .error "User not found"⟩, ds)
    else
      (⟨200, .user ⟨user.id, user.name, user.email, userLinks user.id⟩⟩, ds)

/-- The handler `handlePutUser`. -/
def handlePutUser (atoi : String → Option Int) (ds : DataStore) (r : Request) :
    Response × DataStore :=
  match atoi r.pathId with
  | none => (⟨400, .error "Invalid user ID"⟩, ds)
  | some id =>
    let ((_, exists_), ds) := GetUser ds id
    if !exists_ then
      (⟨404, .error "User not found"⟩, ds)
    else
      match decodePut r.body with
      | none => (⟨400, .error "Invalid JSON"⟩, ds)
      | some (name, email) =>
        let (success, ds) := UpdateUser ds id name email
        if !success then
          (⟨500, .error "Failed to update user"⟩, ds)
        else
          let ((user, _), ds) := GetUser ds id
          (⟨200, .user ⟨user.id, user.name, user.email, userLinks id⟩⟩, ds)

/-- The handler `handlePatchUser`. The decoded `requestBody` is not read after the decode:
the arguments of `UpdateUser` are `user.name` and `user.email` of the record just fetched. -/
def handlePatchUser (atoi : String → Option Int) (ds : DataStore) (r : Request) :
    Response × DataStore :=
  match atoi r.pathId with
  | none => (⟨400, .error "Invalid user ID"⟩, ds)
  | some id =>
    let ((user, exists_), ds) := GetUser ds id
    if !exists_ then
      (⟨404, .error "User not found"⟩, ds)
    else
      match decodePatch r.body with
      | none => (⟨400, .error "Invalid JSON"⟩, ds)
      | some _ =>
        let name := user.name
        let email := user.email
        let (success, ds) := UpdateUser ds id name email
        if !success then
          (⟨500, .error "Failed to update user"⟩, ds)
        else
          let ((updatedUser, _), ds) := GetUser ds id
          (⟨200, .user ⟨updatedUser.id, updatedUser.name, updatedUser.email, userLinks id⟩⟩, ds)

/-- The handler `handleDeleteUser`. -/
def handleDeleteUser (atoi : String → Option Int) (ds : DataStore) (r : Request) :
    Response × DataStore :=
  match atoi r.pathId with
  | none => (⟨400, .error "Invalid user ID"⟩, ds)
  | some id =>
    let (exists_, ds) := DeleteUser ds id
    if !exists_ then
      (⟨404, .error "User not found"⟩, ds)
    else
      (⟨200, .deleted "User deleted successfully"
        [⟨"users", "/users/"⟩, ⟨"create", "/users/"⟩]⟩, ds)

/-! ## Concrete inputs -/

/-- The value of a string of decimal digits, `none` when a character is not a digit. -/
def decimalValue : List Char → Nat → Option Nat
  | [], acc => some acc
  | c :: cs, acc => if c.isDigit then decimalValue cs (10 * acc + (c.toNat - 48)) else none

/-- A decimal parser to stand for `strconv.Atoi` at concrete requests: an optional sign,
at least one digit, a value in the range of a 64-bit `int`. -/
def decimalAtoi (s : String) : Option Int :=
  match s.toList with
  | [] => none
  | '-' :: cs =>
    if cs = [] then none
    else (decimalValue cs 0).bind fun n => if n ≤ 2 ^ 63 then some (-(n : Int)) else none
  | '+' :: cs =>
    if cs = [] then none
    else (decimalValue cs 0).bind fun n => if n < 2 ^ 63 then some (n : Int) else none
  | cs => (decimalValue cs 0).bind fun n => if n < 2 ^ 63 then some (n : Int) else none

/-- A store holding one freshly created record, under the id 5. -/
def store5 : DataStore := ⟨Finmap.singleton 5 ⟨"", "", 5⟩⟩

/-- A store holding the record with name "A" and email "b@x" under the id 5. -/
def storeAB : DataStore := ⟨Finmap.singleton 5 ⟨"A", "b@x", 5⟩⟩

/-- A draw sequence whose first value is 5 and whose later values are all 7. -/
def draws57 : Draws := fun n => if n = 0 then 5 else 7

/-- A draw sequence whose first value is 7 and whose later values are all 5. -/
def draws75 : Draws := fun n => if n = 0 then 7 else 5

/-- The store holding the record under 5 together with a freshly created one under 7. -/
def store57 : DataStore := ⟨store5.users.insert 7 ⟨"", "", 7⟩⟩

/-! ## Reachable stores -/

/-- The stores reachable from `CreateDataStore()` by finitely many calls of `CreateUser`
(each a run that returns, with any draws), `UpdateUser` and `DeleteUser` (with any
arguments). -/
inductive Reachable : DataStore → Prop
  | init : Reachable CreateDataStore
  | create {s s' : DataStore} {draws : Draws} {fuel : Nat} {id : Int} :
      Reachable s → CreateUser s draws fuel = some (id, s') → Reachable s'
  | update {s : DataStore} (id : Int) (name email : String) :
      Reachable s → Reachable (UpdateUser s id name email).2
  | delete {s : DataStore} (id : Int) : Reachable s → Reachable (DeleteUser s id).2

/-! ## Lemmas on the map and the store methods -/

theorem mapIndex_of_lookup {m : Finmap (fun _ : Int => User)} {k : Int} {u : User}
    (h : m.lookup k = some u) : mapIndex m k = (u, true) := by
  simp [mapIndex, h]

theorem mapIndex_of_not_mem {m : Finmap (fun _ : Int => User)} {k : Int}
    (h : k ∉ m) : mapIndex m k = (User.zero, false) := by
  simp [mapIndex, Finmap.lookup_eq_none.mpr h]

theorem mapIndex_snd (m : Finmap (fun _ : Int => User)) (k : Int) :
    (mapIndex m k).2 = true ↔ k ∈ m := by
  by_cases h : k ∈ m
  · obtain ⟨u, hu⟩ := Finmap.mem_iff.mp h
    simp [mapIndex_of_lookup hu, h]
  · simp [mapIndex_of_not_mem h, h]

theorem erase_of_not_mem {m : Finmap (fun _ : Int => User)} {k : Int} (h : k ∉ m) :
    m.erase k = m := by
  apply Finmap.ext_lookup
  intro x
  by_cases hx : x = k
  · subst hx
    rw [Finmap.lookup_erase, Finmap.lookup_eq_none.mpr h]
  · rw [Finmap.lookup_erase_ne hx]

theorem insert_of_lookup {m : Finmap (fun _ : Int => User)} {k : Int} {u : User}
    (h : m.lookup k = some u) : m.insert k u = m := by
  apply Finmap.ext_lookup
  intro x
  by_cases hx : x = k
  · subst hx
    rw [Finmap.lookup_insert, h]
  · rw [Finmap.lookup_insert_of_ne _ hx]

theorem card_keys_insert {m : Finmap (fun _ : Int => User)} {k : Int} (u : User)
    (h : k ∉ m) : (m.insert k u).keys.card = m.keys.card + 1 := by
  have hk : (m.insert k u).keys = insert k m.keys := by
    ext x
    simp [Finmap.mem_keys, Finmap.mem_insert]
  rw [hk, Finset.card_insert_of_not_mem (by simpa [Finmap.mem_keys] using h)]

/-- Once the init statement has found the first candidate among the keys, the loop does
not end, whatever the fuel. -/
theorem createLoop_true (draws : Draws) :
    ∀ (fuel : Nat) (id : Int) (pos : Nat), createLoop draws true fuel id pos = none := by
  intro fuel
  induction fuel with
  | zero => intro id pos; rfl
  | succ n ih =>
    intro id pos
    simp only [createLoop, GenerateUserID, if_true]
    exact ih _ _

/-- When the first candidate is not a key, the loop ends at its first test. -/
theorem createLoop_false (draws : Draws) (fuel : Nat) (id : Int) (pos : Nat) :
    createLoop draws false (fuel + 1) id pos = some (id, pos) := by
  simp [createLoop]

/-- A first draw that is a key: `CreateUser` returns for no amount of fuel. -/
theorem CreateUser_of_mem (s : DataStore) (draws : Draws) (fuel : Nat)
    (h : draws 0 ∈ s.users) : CreateUser s draws fuel = none := by
  have h2 : (mapIndex s.users (draws 0)).2 = true := (mapIndex_snd _ _).mpr h
  simp only [CreateUser, GenerateUserID]
  rw [h2, createLoop_true]

/-- A first draw that is not a key: `CreateUser` returns it, with any positive fuel. -/
theorem CreateUser_of_not_mem (s : DataStore) (draws : Draws) (fuel : Nat)
    (h : draws 0 ∉ s.users) :
    CreateUser s draws (fuel + 1) =
      some (draws 0, ⟨s.users.insert (draws 0) ⟨"", "", draws 0⟩⟩) := by
  simp only [CreateUser, GenerateUserID]
  rw [mapIndex_of_not_mem h, createLoop_false]

/-- The runs of `CreateUser` that return. -/
theorem CreateUser_eq_some {s : DataStore} {draws : Draws} {fuel : Nat} {id : Int}
    {s' : DataStore} (h : CreateUser s draws fuel = some (id, s')) :
    id ∉ s.users ∧ id = draws 0 ∧ s' = ⟨s.users.insert id ⟨"", "", id⟩⟩ := by
  by_cases hm : draws 0 ∈ s.users
  · rw [CreateUser_of_mem s draws fuel hm] at h
    exact absurd h (by simp)
  · cases fuel with
    | zero => simp [CreateUser, createLoop] at h
    | succ n =>
      rw [CreateUser_of_not_mem s draws n hm] at h
      simp only [Option.some.injEq, Prod.mk.injEq] at h
      obtain ⟨h1, h2⟩ := h
      subst h1
      exact ⟨hm, rfl, h2.symm⟩

/-- The result of `UpdateUser` on a key. -/
theorem UpdateUser_of_lookup {s : DataStore} {id : Int} {r : User}
    (h : s.users.lookup id = some r) (name email : String) :
    UpdateUser s id name email =
      (true, ⟨s.users.insert id
        ⟨if name = "" then r.name else name, if email = "" then r.email else email, r.id⟩⟩) := by
  simp [UpdateUser, mapIndex_of_lookup h]

/-- The result of `UpdateUser` on an id that is not a key. -/
theorem UpdateUser_of_not_mem {s : DataStore} {id : Int} (h : id ∉ s.users)
    (name email : String) : UpdateUser s id name email = (false, s) := by
  simp [UpdateUser, mapIndex_of_not_mem h]

/-- What a key reads after `DeleteUser`. -/
theorem DeleteUser_lookup (s : DataStore) (id k : Int) :
    (DeleteUser s id).2.users.lookup k = if k = id then none else s.users.lookup k := by
  have hsnd : (DeleteUser s id).2 = ⟨s.users.erase id⟩ := rfl
  rw [hsnd]
  by_cases hk : k = id
  · subst hk
    simp [Finmap.lookup_erase]
  · simp [hk, Finmap.lookup_erase_ne hk]

/-- What a key reads after `UpdateUser`, in terms of what it read before. -/
theorem UpdateUser_lookup (s : DataStore) (id : Int) (name email : String) (k : Int)
    (u' : User) (h : (UpdateUser s id name email).2.users.lookup k = some u') :
    ∃ u : User, s.users.lookup k = some u ∧ u'.id = u.id := by
  by_cases hm : id ∈ s.users
  · obtain ⟨r, hr⟩ := Finmap.mem_iff.mp hm
    rw [UpdateUser_of_lookup hr] at h
    by_cases hk : k = id
    · subst hk
      rw [Finmap.lookup_insert] at h
      refine ⟨r, hr, ?_⟩
      rw [← Option.some.inj h]
    · rw [Finmap.lookup_insert_of_ne _ hk] at h
      exact ⟨u', h, rfl⟩
  · rw [UpdateUser_of_not_mem hm] at h
    exact ⟨u', h, rfl⟩

/-! ## The store contract -/

/-- C1: whenever a run of `CreateUser` on `s` returns `id` and leaves `s'`, the id was not
a key of `s`, and `s'` is `s` with one record inserted under `id`: there is a record under
`id`, every other key reads as in `s`, and the number of keys has grown by one. -/
theorem CreateUser_fresh (s : DataStore) (draws : Draws) (fuel : Nat) (id : Int)
    (s' : DataStore) (h : CreateUser s draws fuel = some (id, s')) :
    id ∉ s.users ∧
    (∃ u : User, s'.users = s.users.insert id u ∧ s'.users.lookup id = some u) ∧
    (∀ k : Int, k ≠ id → s'.users.lookup k = s.users.lookup k) ∧
    s'.users.keys.card = s.users.keys.card + 1 := by
  obtain ⟨hfresh, -, hs'⟩ := CreateUser_eq_some h
  subst hs'
  refine ⟨hfresh, ⟨⟨"", "", id⟩, rfl, Finmap.lookup_insert _⟩, ?_, card_keys_insert _ hfresh⟩
  intro k hk
  exact Finmap.lookup_insert_of_ne _ hk

/-- C1 on the populated store holding the live id 5, with first draw 7: the run returns 7,
which was not a key, the record under 5 reads as before, and the store has grown from
one key to two. -/
theorem CreateUser_fresh_witness :
    CreateUser store5 draws75 1 = some (7, store57) ∧
    (5 : Int) ∈ store5.users ∧
    (7 : Int) ∉ store5.users ∧
    store57.users.lookup 5 = store5.users.lookup 5 ∧
    store57.users.keys.card = store5.users.keys.card + 1 :=
  have h : CreateUser store5 draws75 1 = some (7, store57) := by decide
  ⟨h, by decide, (CreateUser_fresh store5 draws75 1 7 store57 h).1,
    (CreateUser_fresh store5 draws75 1 7 store57 h).2.2.1 5 (by decide),
    (CreateUser_fresh store5 draws75 1 7 store57 h).2.2.2⟩

/-- C2: on the store holding the key 5, itself the result of a `CreateUser` on the empty
store, with draws 5, 7, 7, ... the second draw 7 is not a key, yet `CreateUser` returns
for no amount of fuel: the loop condition is the `exists` of the first draw. -/
theorem CreateUser_collision_never_returns :
    CreateUser CreateDataStore draws57 1 = some (5, store5) ∧
    draws57 0 ∈ store5.users ∧ draws57 1 = 7 ∧ (7 : Int) ∉ store5.users ∧
    ∀ fuel : Nat, CreateUser store5 draws57 fuel = none := by
  have h0 : draws57 0 ∈ store5.users := by decide
  refine ⟨by decide, h0, by decide, by decide, ?_⟩
  intro fuel
  exact CreateUser_of_mem store5 draws57 fuel h0

/-- C3: `UpdateUser` returns false exactly when the id is not a key, and then leaves the
store as it was; on a key with record `r` it returns true and leaves the store with the
entry at `id` replaced by the record of id `r.id` whose name and email are the arguments,
each replaced by the field of `r` when it is the empty string. -/
theorem UpdateUser_merge (s : DataStore) (id : Int) (name email : String) :
    ((UpdateUser s id name email).1 = false ↔ id ∉ s.users) ∧
    (id ∉ s.users → (UpdateUser s id name email).2 = s) ∧
    (∀ r : User, s.users.lookup id = some r →
      (UpdateUser s id name email).1 = true ∧
      (UpdateUser s id name email).2.users =
        s.users.insert id
          ⟨if name = "" then r.name else name, if email = "" then r.email else email, r.id⟩) := by
  by_cases hm : id ∈ s.users
  · obtain ⟨u, hu⟩ := Finmap.mem_iff.mp hm
    rw [UpdateUser_of_lookup hu]
    refine ⟨by simp [hm], fun h => absurd hm h, ?_⟩
    intro r hr
    rw [Option.some.inj (hu.symm.trans hr)]
    exact ⟨rfl, rfl⟩
  · rw [UpdateUser_of_not_mem hm]
    refine ⟨by simp [hm], fun _ => rfl, ?_⟩
    intro r hr
    exact absurd (Finmap.mem_of_lookup_eq_some hr) hm

/-- C3 on the record with name "A" and email "b@x": an update with an empty name and the
email "c@y" leaves the name "A" and sets the email "c@y". -/
theorem UpdateUser_merge_witness :
    storeAB.users.lookup 5 = some ⟨"A", "b@x", 5⟩ ∧
    (UpdateUser storeAB 5 "" "c@y").1 = true ∧
    (UpdateUser storeAB 5 "" "c@y").2.users = storeAB.users.insert 5 ⟨"A", "c@y", 5⟩ :=
  ⟨by decide, (UpdateUser_merge storeAB 5 "" "c@y").2.2 ⟨"A", "b@x", 5⟩ (by decide)⟩

/-- C5: `DeleteUser` returns true exactly when the id was a key; the store it leaves is
the old one with the entry at `id` erased, so every other key reads as before and the
store is the old one when the id was absent; a `GetUser` of the id afterwards reports
not found. -/
theorem DeleteUser_erases (s : DataStore) (id : Int) :
    ((DeleteUser s id).1 = true ↔ id ∈ s.users) ∧
    (DeleteUser s id).2.users = s.users.erase id ∧
    (∀ k : Int, (DeleteUser s id).2.users.lookup k =
      if k = id then none else s.users.lookup k) ∧
    (id ∉ s.users → (DeleteUser s id).1 = false ∧ (DeleteUser s id).2 = s) ∧
    (GetUser (DeleteUser s id).2 id).1.2 = false := by
  have hfst : (DeleteUser s id).1 = (mapIndex s.users id).2 := rfl
  have hsnd : (DeleteUser s id).2 = ⟨s.users.erase id⟩ := rfl
  refine ⟨?_, ?_, ?_, ?_, ?_⟩
  · rw [hfst]
    exact mapIndex_snd _ _
  · rw [hsnd]
  · exact DeleteUser_lookup s id
  · intro h
    rw [hfst, hsnd, mapIndex_of_not_mem h, erase_of_not_mem h]
    exact ⟨rfl, rfl⟩
  · rw [hsnd]
    have h : id ∉ (s.users.erase id) := Finmap.not_mem_erase_self
    simp [GetUser, mapIndex_of_not_mem h]

/-- C5 on the store holding the key 5: deleting 5 returns true and empties the store,
deleting the never created 7 returns false and changes nothing. -/
theorem DeleteUser_erases_witness :
    (5 : Int) ∈ store5.users ∧ (DeleteUser store5 5).1 = true ∧
    (7 : Int) ∉ store5.users ∧ (DeleteUser store5 7).1 = false ∧
    (DeleteUser store5 7).2 = store5 :=
  ⟨by decide, (DeleteUser_erases store5 5).1.mpr (by decide), by decide,
    (DeleteUser_erases store5 7).2.2.2.1 (by decide)⟩

/-- C6: after a run of `CreateUser` that returns `id`, `GetUser` of `id` finds the record
with that id, the empty name and the empty email; `GetUser` leaves any store as it was;
and on the empty store of `CreateDataStore` every run with positive fuel returns. -/
theorem GetUser_after_CreateUser (s : DataStore) (draws : Draws) (fuel : Nat) (id : Int)
    (s' : DataStore) (h : CreateUser s draws fuel = some (id, s')) :
    (GetUser s' id).1 = (⟨"", "", id⟩, true) ∧
    (∀ (t : DataStore) (k : Int), (GetUser t k).2 = t) ∧
    ∀ (d : Draws) (n : Nat), (CreateUser CreateDataStore d (n + 1)).isSome = true := by
  obtain ⟨-, -, hs'⟩ := CreateUser_eq_some h
  subst hs'
  refine ⟨?_, fun t k => rfl, ?_⟩
  · have hl : (s.users.insert id ⟨"", "", id⟩).lookup id = some ⟨"", "", id⟩ :=
      Finmap.lookup_insert _
    simp [GetUser, mapIndex_of_lookup hl]
  · intro d n
    rw [CreateUser_of_not_mem CreateDataStore d n Finmap.not_mem_empty]
    rfl

/-- C6 at the empty store of `CreateDataStore` with first draw 5. -/
theorem GetUser_after_CreateUser_witness :
    CreateUser CreateDataStore draws57 1 = some (5, store5) ∧
    (GetUser store5 5).1 = (⟨"", "", 5⟩, true) ∧ (GetUser store5 5).2 = store5 :=
  have h : CreateUser CreateDataStore draws57 1 = some (5, store5) := by decide
  ⟨h, (GetUser_after_CreateUser CreateDataStore draws57 1 5 store5 h).1,
    (GetUser_after_CreateUser CreateDataStore draws57 1 5 store5 h).2.1 store5 5⟩

/-! ## The handlers -/

/-- After `GetUser` has reported the id as existing, `UpdateUser` on the same store and id
returns true. -/
theorem UpdateUser_of_mem {s : DataStore} {id : Int} (h : id ∈ s.users)
    (name email : String) : (UpdateUser s id name email).1 = true := by
  obtain ⟨u, hu⟩ := Finmap.mem_iff.mp h
  simp [UpdateUser, mapIndex_of_lookup hu]

/-- The handler `handlePatchUser` leaves every store as it was. -/
theorem handlePatchUser_store (atoi : String → Option Int) (ds : DataStore) (r : Request) :
    (handlePatchUser atoi ds r).2 = ds := by
  unfold handlePatchUser
  cases hid : atoi r.pathId with
  | none => rfl
  | some id =>
    by_cases hm : id ∈ ds.users
    · obtain ⟨u, hu⟩ := Finmap.mem_iff.mp hm
      have hi := mapIndex_of_lookup hu
      have hins : ds.users.insert id ⟨u.name, u.email, u.id⟩ = ds.users :=
        insert_of_lookup hu
      cases hb : decodePatch r.body with
      | none => simp [GetUser, hi]
      | some b => simp [GetUser, UpdateUser, hi, hins]
    · simp [GetUser, mapIndex_of_not_mem hm]

/-- C4: on the store holding one freshly created record under the id 5, a PATCH of
`/users/5` with the body `name: "Ada"` answers 200 with the empty name and leaves the
record with the empty name, where a PUT of the same request stores and renders "Ada". -/
theorem handlePatchUser_ignores_body :
    CreateUser CreateDataStore draws57 1 = some (5, store5) ∧
    handlePatchUser decimalAtoi store5 ⟨"5", .object (some "Ada") none⟩ =
      (⟨200, .user ⟨5, "", "", userLinks 5⟩⟩, store5) ∧
    (handlePatchUser decimalAtoi store5 ⟨"5", .object (some "Ada") none⟩).2.users.lookup 5 =
      some ⟨"", "", 5⟩ ∧
    handlePutUser decimalAtoi store5 ⟨"5", .object (some "Ada") none⟩ =
      (⟨200, .user ⟨5, "Ada", "", userLinks 5⟩⟩, ⟨Finmap.singleton 5 ⟨"Ada", "", 5⟩⟩) := by
  refine ⟨by decide, by decide, by decide, by decide⟩

/-- C7: when the path value `id` does not parse, each of the four handlers answers 400
"Invalid user ID" and leaves the store as it was, whatever the store and the body. -/
theorem handlers_invalid_id (atoi : String → Option Int) (ds : DataStore) (r : Request)
    (h : atoi r.pathId = none) :
    handleGetUser atoi ds r = (⟨400, .error "Invalid user ID"⟩, ds) ∧
    handlePutUser atoi ds r = (⟨400, .error "Invalid user ID"⟩, ds) ∧
    handlePatchUser atoi ds r = (⟨400, .error "Invalid user ID"⟩, ds) ∧
    handleDeleteUser atoi ds r = (⟨400, .error "Invalid user ID"⟩, ds) := by
  refine ⟨?_, ?_, ?_, ?_⟩
  · simp [handleGetUser, h]
  · simp [handlePutUser, h]
  · simp [handlePatchUser, h]
  · simp [handleDeleteUser, h]

/-- C7 on the path value "abc" with a body that would rename the record under 5. -/
theorem handlers_invalid_id_witness :
    decimalAtoi "abc" = none ∧
    (handlePutUser decimalAtoi store5 ⟨"abc", .object (some "Ada") none⟩).1.status = 400 ∧
    (handlePutUser decimalAtoi store5 ⟨"abc", .object (some "Ada") none⟩).2 = store5 ∧
    (handleDeleteUser decimalAtoi store5 ⟨"abc", .malformed⟩).1.status = 400 ∧
    (handleDeleteUser decimalAtoi store5 ⟨"abc", .malformed⟩).2 = store5 :=
  have h : decimalAtoi "abc" = none := by decide
  have hput := (handlers_invalid_id decimalAtoi store5
    ⟨"abc", .object (some "Ada") none⟩ h).2.1
  have hdel := (handlers_invalid_id decimalAtoi store5 ⟨"abc", .malformed⟩ h).2.2.2
  ⟨h, congrArg (fun p => p.1.status) hput, congrArg Prod.snd hput,
    congrArg (fun p => p.1.status) hdel, congrArg Prod.snd hdel⟩

/-- C8: when the path value parses to an id that is not a key, each of the four handlers
answers 404 "User not found" and leaves the store as it was, whatever the body. -/
theorem handlers_not_found (atoi : String → Option Int) (ds : DataStore) (r : Request)
    (id : Int) (hid : atoi r.pathId = some id) (habs : id ∉ ds.users) :
    handleGetUser atoi ds r = (⟨404, .error "User not found"⟩, ds) ∧
    handlePutUser atoi ds r = (⟨404, .error "User not found"⟩, ds) ∧
    handlePatchUser atoi ds r = (⟨404, .error "User not found"⟩, ds) ∧
    handleDeleteUser atoi ds r = (⟨404, .error "User not found"⟩, ds) := by
  have hi := mapIndex_of_not_mem habs
  refine ⟨?_, ?_, ?_, ?_⟩
  · simp [handleGetUser, hid, GetUser, hi]
  · simp [handlePutUser, hid, GetUser, hi]
  · simp [handlePatchUser, hid, GetUser, hi]
  · simp [handleDeleteUser, hid, DeleteUser, hi, erase_of_not_mem habs]

/-- C8 on the path value "7" over the store whose only key is 5, with a malformed body
for PUT and a well-formed one for PATCH. -/
theorem handlers_not_found_witness :
    decimalAtoi "7" = some 7 ∧ (7 : Int) ∉ store5.users ∧
    (handlePutUser decimalAtoi store5 ⟨"7", .malformed⟩).1.status = 404 ∧
    (handlePatchUser decimalAtoi store5 ⟨"7", .object (some "Ada") none⟩).1.status = 404 ∧
    (handleDeleteUser decimalAtoi store5 ⟨"7", .malformed⟩).2 = store5 :=
  have h : decimalAtoi "7" = some 7 := by decide
  have hn : (7 : Int) ∉ store5.users := by decide
  ⟨h, hn,
    congrArg (fun p => p.1.status)
      (handlers_not_found decimalAtoi store5 ⟨"7", .malformed⟩ 7 h hn).2.1,
    congrArg (fun p => p.1.status)
      (handlers_not_found decimalAtoi store5 ⟨"7", .object (some "Ada") none⟩ 7 h hn).2.2.1,
    congrArg Prod.snd
      (handlers_not_found decimalAtoi store5 ⟨"7", .malformed⟩ 7 h hn).2.2.2⟩

/-- C10: neither `handlePutUser` nor `handlePatchUser` answers 500, whatever the store,
the path value and the body: `UpdateUser` returns true on every id that `GetUser`
reports as existing in the same store. -/
theorem handlers_never_500 (atoi : String → Option Int) (ds : DataStore) (r : Request) :
    (handlePutUser atoi ds r).1.status ≠ 500 ∧
    (handlePatchUser atoi ds r).1.status ≠ 500 ∧
    ∀ (id : Int) (name email : String), (GetUser ds id).1.2 = true →
      (UpdateUser (GetUser ds id).2 id name email).1 = true := by
  refine ⟨?_, ?_, ?_⟩
  · unfold handlePutUser
    cases hid : atoi r.pathId with
    | none => simp
    | some id =>
      by_cases hm : id ∈ ds.users
      · obtain ⟨u, hu⟩ := Finmap.mem_iff.mp hm
        have hi := mapIndex_of_lookup hu
        cases hb : decodePut r.body with
        | none => simp [GetUser, hi]
        | some b =>
          obtain ⟨name, email⟩ := b
          simp [GetUser, UpdateUser, hi]
      · simp [GetUser, mapIndex_of_not_mem hm]
  · unfold handlePatchUser
    cases hid : atoi r.pathId with
    | none => simp
    | some id =>
      by_cases hm : id ∈ ds.users
      · obtain ⟨u, hu⟩ := Finmap.mem_iff.mp hm
        have hi := mapIndex_of_lookup hu
        cases hb : decodePatch r.body with
        | none => simp [GetUser, hi]
        | some b => simp [GetUser, UpdateUser, hi]
      · simp [GetUser, mapIndex_of_not_mem hm]
  · intro id name email h
    have hm : id ∈ ds.users := (mapIndex_snd _ _).mp h
    exact UpdateUser_of_mem hm name email

/-! ## The key invariant -/

/-- C9: in every reachable store each key equals the id field of the record under it, and
`UpdateUser` leaves the id field of every record as it was. -/
theorem Reachable_key_eq_id (s : DataStore) (h : Reachable s) :
    (∀ (k : Int) (u : User), s.users.lookup k = some u → u.id = k) ∧
    ∀ (id : Int) (name email : String) (k : Int) (u u' : User),
      s.users.lookup k = some u →
      (UpdateUser s id name email).2.users.lookup k = some u' → u'.id = u.id := by
  constructor
  · induction h with
    | init =>
      intro k u hu
      simp [CreateDataStore, Finmap.lookup_empty] at hu
    | @create s0 s1 draws fuel id _ hc ih =>
      intro k u hu
      obtain ⟨-, -, hs'⟩ := CreateUser_eq_some hc
      subst hs'
      by_cases hk : k = id
      · subst hk
        rw [Finmap.lookup_insert] at hu
        rw [← Option.some.inj hu]
      · rw [Finmap.lookup_insert_of_ne _ hk] at hu
        exact ih k u hu
    | update id name email _ ih =>
      intro k u hu
      obtain ⟨u0, hu0, hid⟩ := UpdateUser_lookup _ id name email k u hu
      rw [hid]
      exact ih k u0 hu0
    | delete id _ ih =>
      intro k u hu
      rw [DeleteUser_lookup _ id k] at hu
      by_cases hk : k = id
      · simp [hk] at hu
      · simp only [hk, if_false] at hu
        exact ih k u hu
  · intro id name email k u u' hu hu'
    obtain ⟨u0, hu0, hid⟩ := UpdateUser_lookup s id name email k u' hu'
    rw [hid, Option.some.inj (hu0.symm.trans hu)]

/-- C9 on the store reached by a `CreateUser` that draws 5 and an `UpdateUser` of 5 to
the name "A" and the email "b@x". -/
theorem Reachable_key_eq_id_witness :
    Reachable storeAB ∧ storeAB.users.lookup 5 = some ⟨"A", "b@x", 5⟩ ∧
    (⟨"A", "b@x", 5⟩ : User).id = 5 :=
  have hc : CreateUser CreateDataStore draws57 1 = some (5, store5) := by decide
  have he : (UpdateUser store5 5 "A" "b@x").2 = storeAB := by decide
  have hr : Reachable storeAB :=
    he ▸ Reachable.update 5 "A" "b@x" (Reachable.create Reachable.init hc)
  have hl : storeAB.users.lookup 5 = some ⟨"A", "b@x", 5⟩ := by decide
  ⟨hr, hl, (Reachable_key_eq_id storeAB hr).1 5 ⟨"A", "b@x", 5⟩ hl⟩

end BudgetPal
